import Mathlib

set_option maxHeartbeats 1000000

/-! Shallow embedding of `src/change_limiter.h` (Arduino-ChangeLimiter):
the `ChangeLimiter` class and its derived `AbsChangeLimiter`.  Machine
`int` values are modelled as `Int` (the claims assume no overflow of the
value arithmetic, per the spec's error-handling section), and the
`unsigned long` millisecond timestamps as `Nat` reduced modulo 2^32 where
the code performs unsigned subtraction. -/

/-- Modulus of the Arduino `unsigned long` type (32 bits), 2^32. -/
def ULONG_MOD : Nat := 4294967296

/-- Wraparound `unsigned long` subtraction, as computed by the expression
`ms - prev_time_` inside `output(unsigned long ms)`. -/
def elapsedTime (ms prev : Nat) : Nat :=
  (ms + (ULONG_MOD - prev % ULONG_MOD)) % ULONG_MOD

/-- Modelled from the spec: the `sign` helper called by
`AbsChangeLimiter::output` is not defined under `src/`; per the spec it
yields -1, 0 or 1 according to the sign of its argument. -/
def sign (x : Int) : Int :=
  if 0 < x then 1 else if x < 0 then -1 else 0

/-- The member state shared by `ChangeLimiter` and `AbsChangeLimiter`
(fields as declared at the bottom of the class). -/
structure ChangeLimiter where
  enabled_ : Bool
  max_falling_ : Int
  max_rising_ : Int
  period_ : Nat
  prev_time_ : Nat
  value_ : Int
  target_ : Int
deriving DecidableEq

namespace ChangeLimiter

/-- `ChangeLimiter::begin()`. -/
def begin (_s : ChangeLimiter) : ChangeLimiter :=
  { enabled_ := true, max_falling_ := 0, max_rising_ := 0, period_ := 0
    prev_time_ := 0, value_ := 0, target_ := 0 }

/-- `ChangeLimiter::set_limit(int maxFalling, int maxRising)`. -/
def set_limit (s : ChangeLimiter) (maxFalling maxRising : Int) : ChangeLimiter :=
  { s with max_falling_ := -|maxFalling|, max_rising_ := |maxRising| }

/-- `ChangeLimiter::set_limit(int maxChange)` (single-argument overload). -/
def set_limit_single (s : ChangeLimiter) (maxChange : Int) : ChangeLimiter :=
  s.set_limit maxChange maxChange

/-- `ChangeLimiter::set_period(unsigned int period)`. -/
def set_period (s : ChangeLimiter) (period : Nat) : ChangeLimiter :=
  { s with period_ := period }

/-- `ChangeLimiter::set_value(int value)`. -/
def set_value (s : ChangeLimiter) (value : Int) : ChangeLimiter :=
  { s with value_ := value }

/-- `ChangeLimiter::set_enabled(bool enabled)`. -/
def set_enabled (s : ChangeLimiter) (enabled : Bool) : ChangeLimiter :=
  { s with enabled_ := enabled }

/-- `ChangeLimiter::set_target(int target)`. -/
def set_target (s : ChangeLimiter) (target : Int) : ChangeLimiter :=
  { s with target_ := target }

/-- `ChangeLimiter::target_reached()`. -/
def target_reached (s : ChangeLimiter) : Bool :=
  s.value_ == s.target_

/-- The value computed by the update block of `ChangeLimiter::output`
(lines 89-101): delta-clamped step towards the target. -/
def stepValue (s : ChangeLimiter) : Int :=
  let delta := s.target_ - s.value_
  if delta > 0 ∧ delta > s.max_rising_ then s.value_ + s.max_rising_
  else if delta < 0 ∧ delta < s.max_falling_ then s.value_ + s.max_falling_
  else s.value_ + delta

/-- `ChangeLimiter::output(unsigned long ms)`: returns the new state and
the returned value. -/
def output (s : ChangeLimiter) (ms : Nat) : ChangeLimiter × Int :=
  if s.enabled_ then
    -- take the current time for the first iteration
    let s1 := if s.prev_time_ = 0 then { s with prev_time_ := ms } else s
    -- is it time to update the value?
    if s1.period_ = 0 ∨ elapsedTime ms s1.prev_time_ ≥ s1.period_ then
      let s2 := { s1 with prev_time_ := ms, value_ := stepValue s1 }
      (s2, s2.value_)
    else
      (s1, s1.value_)
  else
    ({ s with value_ := s.target_ }, s.target_)

end ChangeLimiter

namespace AbsChangeLimiter

/-- `AbsChangeLimiter::set_limit(int maxFalling, int maxRising)` (override). -/
def set_limit (s : ChangeLimiter) (maxFalling maxRising : Int) : ChangeLimiter :=
  { s with max_falling_ := |maxFalling|, max_rising_ := |maxRising| }

/-- The value computed by the update block of `AbsChangeLimiter::output`
(lines 157-188): zero-pass when the signs differ, magnitude delta logic
otherwise. -/
def stepValue (s : ChangeLimiter) : Int :=
  let differentSigns := sign s.target_ * sign s.value_ = -1
  if differentSigns then
    -- the value must make a zero pass first and is treated as falling
    if |s.value_| ≤ s.max_falling_ then 0
    else s.value_ - sign s.value_ * s.max_falling_
  else
    -- normal delta logic on magnitudes
    let delta := |s.target_| - |s.value_|
    let dir := Int.lor (sign s.value_) (sign s.target_)
    if delta > 0 ∧ delta > s.max_rising_ then s.value_ + dir * s.max_rising_
    else if delta < 0 ∧ |delta| > s.max_falling_ then s.value_ - dir * s.max_falling_
    else s.value_ + dir * delta

/-- `AbsChangeLimiter::output(unsigned long ms)`: same gating as the base
class, with the magnitude-based update block. -/
def output (s : ChangeLimiter) (ms : Nat) : ChangeLimiter × Int :=
  if s.enabled_ then
    let s1 := if s.prev_time_ = 0 then { s with prev_time_ := ms } else s
    if s1.period_ = 0 ∨ elapsedTime ms s1.prev_time_ ≥ s1.period_ then
      let s2 := { s1 with prev_time_ := ms, value_ := stepValue s1 }
      (s2, s2.value_)
    else
      (s1, s1.value_)
  else
    ({ s with value_ := s.target_ }, s.target_)

end AbsChangeLimiter

/-- A run of successive `ChangeLimiter::output` calls at the given timestamps. -/
def runCL (s : ChangeLimiter) (ts : List Nat) : ChangeLimiter :=
  ts.foldl (fun s t => (ChangeLimiter.output s t).1) s

/-- A run of successive `AbsChangeLimiter::output` calls at the given timestamps. -/
def runAbs (s : ChangeLimiter) (ts : List Nat) : ChangeLimiter :=
  ts.foldl (fun s t => (AbsChangeLimiter.output s t).1) s

/-- Configurations of a `ChangeLimiter` reachable through its public
interface after `begin()`; timestamps are `unsigned long` values, hence
below `ULONG_MOD`. -/
inductive ReachableCL : ChangeLimiter → Prop where
  | begun (s : ChangeLimiter) : ReachableCL s.begin
  | limit {s : ChangeLimiter} (a b : Int) :
      ReachableCL s → ReachableCL (s.set_limit a b)
  | limit_single {s : ChangeLimiter} (a : Int) :
      ReachableCL s → ReachableCL (s.set_limit_single a)
  | period {s : ChangeLimiter} (p : Nat) :
      ReachableCL s → ReachableCL (s.set_period p)
  | value {s : ChangeLimiter} (v : Int) :
      ReachableCL s → ReachableCL (s.set_value v)
  | target {s : ChangeLimiter} (t : Int) :
      ReachableCL s → ReachableCL (s.set_target t)
  | enable {s : ChangeLimiter} (b : Bool) :
      ReachableCL s → ReachableCL (s.set_enabled b)
  | step {s : ChangeLimiter} (ms : Nat) :
      ReachableCL s → ms < ULONG_MOD → ReachableCL (ChangeLimiter.output s ms).1

/-- Configurations of an `AbsChangeLimiter` reachable through its public
interface after `begin()` (the derived `set_limit` and `output` hide the
base versions). -/
inductive ReachableAbs : ChangeLimiter → Prop where
  | begun (s : ChangeLimiter) : ReachableAbs s.begin
  | limit {s : ChangeLimiter} (a b : Int) :
      ReachableAbs s → ReachableAbs (AbsChangeLimiter.set_limit s a b)
  | period {s : ChangeLimiter} (p : Nat) :
      ReachableAbs s → ReachableAbs (s.set_period p)
  | value {s : ChangeLimiter} (v : Int) :
      ReachableAbs s → ReachableAbs (s.set_value v)
  | target {s : ChangeLimiter} (t : Int) :
      ReachableAbs s → ReachableAbs (s.set_target t)
  | enable {s : ChangeLimiter} (b : Bool) :
      ReachableAbs s → ReachableAbs (s.set_enabled b)
  | step {s : ChangeLimiter} (ms : Nat) :
      ReachableAbs s → ms < ULONG_MOD → ReachableAbs (AbsChangeLimiter.output s ms).1

/-- Modelled from the spec: a never-initialized instance behaves as if every
field is zero (enabled false, limits 0, period 0, sentinel timestamp 0,
value 0, target 0); the C++ source leaves such fields indeterminate, the
spec pins down this state. -/
def zeroState : ChangeLimiter := ⟨false, 0, 0, 0, 0, 0, 0⟩

/-- Distance from the current value to the target, `|target - value|`. -/
def distTo (s : ChangeLimiter) : Nat := (s.target_ - s.value_).natAbs

/-- The smaller of the two effective limit magnitudes,
`min |maxFalling| |maxRising|` (the claim's step size bound). -/
def minLimit (s : ChangeLimiter) : Nat :=
  min s.max_falling_.natAbs s.max_rising_.natAbs

/-- Ceiling division on naturals, `ceil (a / b)`. -/
def ceilDivN (a b : Nat) : Nat := (a + b - 1) / b

/-- Indicator of the zero-crossing situation: 1 when `sign target * sign value
= -1` (value and target on strictly opposite sides of zero), else 0. -/
def snapIndicator (t v : Int) : Nat := if sign t * sign v = -1 then 1 else 0

/-- Valid call schedules: timestamps are `unsigned long` values, each at
least the running lower bound, strictly increasing and spaced at least the
period apart. -/
def Sched (p : Nat) : Nat → List Nat → Prop
  | _, [] => True
  | lo, t :: ts => lo ≤ t ∧ t < ULONG_MOD ∧ Sched p (t + max p 1) ts

/-- The earliest admissible first timestamp for a schedule continuing a
state: unconstrained from the sentinel, one period after `prev_time_`
otherwise. -/
def startLo (s : ChangeLimiter) : Nat :=
  if s.prev_time_ = 0 then 0 else s.prev_time_ + s.period_

/-- Bookkeeping slack for idle calls that cannot fire: up to two calls may be
consumed re-initializing the time sentinel before the first real update. -/
def slack (s : ChangeLimiter) (lo : Nat) : Nat :=
  if s.period_ = 0 then 0
  else if s.prev_time_ ≠ 0 then 0
  else if lo = 0 then 2 else 1

/-! ### Basic facts about the embedding -/

theorem elapsed_self (ms : Nat) : elapsedTime ms ms = 0 := by
  unfold elapsedTime ULONG_MOD
  omega

theorem elapsed_of_le {ms prev : Nat} (h1 : prev ≤ ms) (h2 : ms < ULONG_MOD) :
    elapsedTime ms prev = ms - prev := by
  unfold elapsedTime ULONG_MOD at *
  omega

theorem elapsed_wrap {ms prev : Nat} (h1 : ms < prev) (h2 : prev < ULONG_MOD) :
    elapsedTime ms prev = ULONG_MOD - (prev - ms) := by
  unfold elapsedTime ULONG_MOD at *
  omega

theorem sign_of_pos {x : Int} (h : 0 < x) : sign x = 1 := by
  unfold sign
  rw [if_pos h]

theorem sign_of_neg {x : Int} (h : x < 0) : sign x = -1 := by
  unfold sign
  rw [if_neg (by omega), if_pos h]

theorem sign_of_zero {x : Int} (h : x = 0) : sign x = 0 := by
  subst h
  rfl

theorem ChangeLimiter.stepValue_set_prev (s : ChangeLimiter) (x : Nat) :
    ChangeLimiter.stepValue { s with prev_time_ := x } = ChangeLimiter.stepValue s := rfl

theorem AbsChangeLimiter.stepValue_set_prev_abs (s : ChangeLimiter) (x : Nat) :
    AbsChangeLimiter.stepValue { s with prev_time_ := x } = AbsChangeLimiter.stepValue s := rfl

/-! Characterization of the two `output` functions: the disabled bypass, the
idle first call, the period-gated call, and the firing call. -/

theorem ChangeLimiter.output_disabled (s : ChangeLimiter) (ms : Nat) (h : s.enabled_ = false) :
    ChangeLimiter.output s ms = ({ s with value_ := s.target_ }, s.target_) := by
  simp [ChangeLimiter.output, h]

theorem AbsChangeLimiter.output_disabled_abs (s : ChangeLimiter) (ms : Nat) (h : s.enabled_ = false) :
    AbsChangeLimiter.output s ms = ({ s with value_ := s.target_ }, s.target_) := by
  simp [AbsChangeLimiter.output, h]

theorem ChangeLimiter.output_first (s : ChangeLimiter) (ms : Nat) (he : s.enabled_ = true)
    (h0 : s.prev_time_ = 0) (hp : s.period_ ≠ 0) :
    ChangeLimiter.output s ms = ({ s with prev_time_ := ms }, s.value_) := by
  simp [ChangeLimiter.output, he, h0, hp, elapsed_self, Nat.le_zero]

theorem AbsChangeLimiter.output_first_abs (s : ChangeLimiter) (ms : Nat) (he : s.enabled_ = true)
    (h0 : s.prev_time_ = 0) (hp : s.period_ ≠ 0) :
    AbsChangeLimiter.output s ms = ({ s with prev_time_ := ms }, s.value_) := by
  simp [AbsChangeLimiter.output, he, h0, hp, elapsed_self, Nat.le_zero]

theorem ChangeLimiter.output_gated (s : ChangeLimiter) (ms : Nat) (he : s.enabled_ = true)
    (h0 : s.prev_time_ ≠ 0) (hp : s.period_ ≠ 0)
    (hl : elapsedTime ms s.prev_time_ < s.period_) :
    ChangeLimiter.output s ms = (s, s.value_) := by
  simp [ChangeLimiter.output, he, h0, hp, not_le.mpr hl]

theorem AbsChangeLimiter.output_gated_abs (s : ChangeLimiter) (ms : Nat) (he : s.enabled_ = true)
    (h0 : s.prev_time_ ≠ 0) (hp : s.period_ ≠ 0)
    (hl : elapsedTime ms s.prev_time_ < s.period_) :
    AbsChangeLimiter.output s ms = (s, s.value_) := by
  simp [AbsChangeLimiter.output, he, h0, hp, not_le.mpr hl]

theorem ChangeLimiter.output_fire (s : ChangeLimiter) (ms : Nat) (he : s.enabled_ = true)
    (hf : s.period_ = 0 ∨ (s.prev_time_ ≠ 0 ∧ s.period_ ≤ elapsedTime ms s.prev_time_)) :
    ChangeLimiter.output s ms =
      ({ s with prev_time_ := ms, value_ := ChangeLimiter.stepValue s },
        ChangeLimiter.stepValue s) := by
  by_cases h0 : s.prev_time_ = 0
  · rcases hf with hp | ⟨hne, _⟩
    · simp [ChangeLimiter.output, he, h0, hp, ChangeLimiter.stepValue_set_prev]
      rfl
    · exact absurd h0 hne
  · rcases hf with hp | ⟨_, hge⟩
    · simp [ChangeLimiter.output, he, h0, hp]
    · simp [ChangeLimiter.output, he, h0, hge]

theorem AbsChangeLimiter.output_fire_abs (s : ChangeLimiter) (ms : Nat) (he : s.enabled_ = true)
    (hf : s.period_ = 0 ∨ (s.prev_time_ ≠ 0 ∧ s.period_ ≤ elapsedTime ms s.prev_time_)) :
    AbsChangeLimiter.output s ms =
      ({ s with prev_time_ := ms, value_ := AbsChangeLimiter.stepValue s },
        AbsChangeLimiter.stepValue s) := by
  by_cases h0 : s.prev_time_ = 0
  · rcases hf with hp | ⟨hne, _⟩
    · simp [AbsChangeLimiter.output, he, h0, hp, AbsChangeLimiter.stepValue_set_prev_abs]
      rfl
    · exact absurd h0 hne
  · rcases hf with hp | ⟨_, hge⟩
    · simp [AbsChangeLimiter.output, he, h0, hp]
    · simp [AbsChangeLimiter.output, he, h0, hge]

theorem ChangeLimiter.output_shape (s : ChangeLimiter) (ms : Nat) :
    ChangeLimiter.output s ms = ({ s with value_ := s.target_ }, s.target_) ∨
    ChangeLimiter.output s ms = ({ s with prev_time_ := ms }, s.value_) ∨
    ChangeLimiter.output s ms = (s, s.value_) ∨
    ChangeLimiter.output s ms =
      ({ s with prev_time_ := ms, value_ := ChangeLimiter.stepValue s },
        ChangeLimiter.stepValue s) := by
  by_cases he : s.enabled_ = true
  · by_cases hg : s.period_ = 0 ∨ (s.prev_time_ ≠ 0 ∧ s.period_ ≤ elapsedTime ms s.prev_time_)
    · exact Or.inr (Or.inr (Or.inr (ChangeLimiter.output_fire s ms he hg)))
    · push_neg at hg
      by_cases h0 : s.prev_time_ = 0
      · exact Or.inr (Or.inl (ChangeLimiter.output_first s ms he h0 hg.1))
      · exact Or.inr (Or.inr (Or.inl
          (ChangeLimiter.output_gated s ms he h0 hg.1 (hg.2 h0))))
  · exact Or.inl (ChangeLimiter.output_disabled s ms (by simpa using he))

theorem AbsChangeLimiter.output_shape_abs (s : ChangeLimiter) (ms : Nat) :
    AbsChangeLimiter.output s ms = ({ s with value_ := s.target_ }, s.target_) ∨
    AbsChangeLimiter.output s ms = ({ s with prev_time_ := ms }, s.value_) ∨
    AbsChangeLimiter.output s ms = (s, s.value_) ∨
    AbsChangeLimiter.output s ms =
      ({ s with prev_time_ := ms, value_ := AbsChangeLimiter.stepValue s },
        AbsChangeLimiter.stepValue s) := by
  by_cases he : s.enabled_ = true
  · by_cases hg : s.period_ = 0 ∨ (s.prev_time_ ≠ 0 ∧ s.period_ ≤ elapsedTime ms s.prev_time_)
    · exact Or.inr (Or.inr (Or.inr (AbsChangeLimiter.output_fire_abs s ms he hg)))
    · push_neg at hg
      by_cases h0 : s.prev_time_ = 0
      · exact Or.inr (Or.inl (AbsChangeLimiter.output_first_abs s ms he h0 hg.1))
      · exact Or.inr (Or.inr (Or.inl
          (AbsChangeLimiter.output_gated_abs s ms he h0 hg.1 (hg.2 h0))))
  · exact Or.inl (AbsChangeLimiter.output_disabled_abs s ms (by simpa using he))

theorem ChangeLimiter.output_frame (s : ChangeLimiter) (ms : Nat) :
    (ChangeLimiter.output s ms).1.enabled_ = s.enabled_ ∧
    (ChangeLimiter.output s ms).1.max_falling_ = s.max_falling_ ∧
    (ChangeLimiter.output s ms).1.max_rising_ = s.max_rising_ ∧
    (ChangeLimiter.output s ms).1.period_ = s.period_ ∧
    (ChangeLimiter.output s ms).1.target_ = s.target_ := by
  rcases ChangeLimiter.output_shape s ms with h | h | h | h <;> rw [h] <;>
    exact ⟨rfl, rfl, rfl, rfl, rfl⟩

theorem AbsChangeLimiter.output_frame_abs (s : ChangeLimiter) (ms : Nat) :
    (AbsChangeLimiter.output s ms).1.enabled_ = s.enabled_ ∧
    (AbsChangeLimiter.output s ms).1.max_falling_ = s.max_falling_ ∧
    (AbsChangeLimiter.output s ms).1.max_rising_ = s.max_rising_ ∧
    (AbsChangeLimiter.output s ms).1.period_ = s.period_ ∧
    (AbsChangeLimiter.output s ms).1.target_ = s.target_ := by
  rcases AbsChangeLimiter.output_shape_abs s ms with h | h | h | h <;> rw [h] <;>
    exact ⟨rfl, rfl, rfl, rfl, rfl⟩

theorem ChangeLimiter.output_prev_cases (s : ChangeLimiter) (ms : Nat) :
    (ChangeLimiter.output s ms).1.prev_time_ = ms ∨
    (ChangeLimiter.output s ms).1.prev_time_ = s.prev_time_ := by
  rcases ChangeLimiter.output_shape s ms with h | h | h | h <;> rw [h] <;> simp

theorem AbsChangeLimiter.output_prev_cases_abs (s : ChangeLimiter) (ms : Nat) :
    (AbsChangeLimiter.output s ms).1.prev_time_ = ms ∨
    (AbsChangeLimiter.output s ms).1.prev_time_ = s.prev_time_ := by
  rcases AbsChangeLimiter.output_shape_abs s ms with h | h | h | h <;> rw [h] <;> simp

/-- The value returned by `ChangeLimiter::output` is always the (new) value
of the state. -/
theorem ChangeLimiter.output_ret (s : ChangeLimiter) (ms : Nat) :
    (ChangeLimiter.output s ms).2 = (ChangeLimiter.output s ms).1.value_ := by
  rcases ChangeLimiter.output_shape s ms with h | h | h | h <;> rw [h]

theorem AbsChangeLimiter.output_ret_abs (s : ChangeLimiter) (ms : Nat) :
    (AbsChangeLimiter.output s ms).2 = (AbsChangeLimiter.output s ms).1.value_ := by
  rcases AbsChangeLimiter.output_shape_abs s ms with h | h | h | h <;> rw [h]

/-- Invariant of reachable plain-limiter states: `max_falling_ ≤ 0 ≤ max_rising_`
and the recorded timestamp is an `unsigned long` value. -/
theorem reachCL_inv {s : ChangeLimiter} (h : ReachableCL s) :
    s.max_falling_ ≤ 0 ∧ 0 ≤ s.max_rising_ ∧ s.prev_time_ < ULONG_MOD := by
  induction h with
  | begun s => exact ⟨le_refl 0, le_refl 0, by norm_num [ChangeLimiter.begin, ULONG_MOD]⟩
  | limit a b _ ih =>
      exact ⟨neg_nonpos.mpr (abs_nonneg a), abs_nonneg b, ih.2.2⟩
  | limit_single a _ ih =>
      exact ⟨neg_nonpos.mpr (abs_nonneg a), abs_nonneg a, ih.2.2⟩
  | period p _ ih => exact ⟨ih.1, ih.2.1, ih.2.2⟩
  | value v _ ih => exact ⟨ih.1, ih.2.1, ih.2.2⟩
  | target t _ ih => exact ⟨ih.1, ih.2.1, ih.2.2⟩
  | enable b _ ih => exact ⟨ih.1, ih.2.1, ih.2.2⟩
  | step ms _ hms ih =>
      refine ⟨?_, ?_, ?_⟩
      · rw [(ChangeLimiter.output_frame _ ms).2.1]
        exact ih.1
      · rw [(ChangeLimiter.output_frame _ ms).2.2.1]
        exact ih.2.1
      · rcases ChangeLimiter.output_prev_cases _ ms with hc | hc <;> rw [hc]
        · exact hms
        · exact ih.2.2

/-- Invariant of reachable absolute-limiter states: both limits are
non-negative and the recorded timestamp is an `unsigned long` value. -/
theorem reachAbs_inv {s : ChangeLimiter} (h : ReachableAbs s) :
    0 ≤ s.max_falling_ ∧ 0 ≤ s.max_rising_ ∧ s.prev_time_ < ULONG_MOD := by
  induction h with
  | begun s => exact ⟨le_refl 0, le_refl 0, by norm_num [ChangeLimiter.begin, ULONG_MOD]⟩
  | limit a b _ ih => exact ⟨abs_nonneg a, abs_nonneg b, ih.2.2⟩
  | period p _ ih => exact ⟨ih.1, ih.2.1, ih.2.2⟩
  | value v _ ih => exact ⟨ih.1, ih.2.1, ih.2.2⟩
  | target t _ ih => exact ⟨ih.1, ih.2.1, ih.2.2⟩
  | enable b _ ih => exact ⟨ih.1, ih.2.1, ih.2.2⟩
  | step ms _ hms ih =>
      refine ⟨?_, ?_, ?_⟩
      · rw [(AbsChangeLimiter.output_frame_abs _ ms).2.1]
        exact ih.1
      · rw [(AbsChangeLimiter.output_frame_abs _ ms).2.2.1]
        exact ih.2.1
      · rcases AbsChangeLimiter.output_prev_cases_abs _ ms with hc | hc <;> rw [hc]
        · exact hms
        · exact ih.2.2

/-! ### Claims about single calls and setters -/

/-- Claim C4: for both limiter variants, whenever `enabled_` is false, a call
to `output` with any timestamp sets the value equal to the target immediately
and returns it, regardless of period, elapsed time, or the limits. -/
theorem C4_disabled_bypass (s : ChangeLimiter) (ms : Nat) (h : s.enabled_ = false) :
    (ChangeLimiter.output s ms).1.value_ = s.target_ ∧
    (ChangeLimiter.output s ms).2 = s.target_ ∧
    (AbsChangeLimiter.output s ms).1.value_ = s.target_ ∧
    (AbsChangeLimiter.output s ms).2 = s.target_ := by
  rw [ChangeLimiter.output_disabled s ms h, AbsChangeLimiter.output_disabled_abs s ms h]
  exact ⟨rfl, rfl, rfl, rfl⟩

theorem C4_disabled_bypass_witness :
    (ChangeLimiter.output ⟨false, -10, 20, 5, 42, 3, 7⟩ 11).1.value_ = 7 ∧
    (ChangeLimiter.output ⟨false, -10, 20, 5, 42, 3, 7⟩ 11).2 = 7 ∧
    (AbsChangeLimiter.output ⟨false, -10, 20, 5, 42, 3, 7⟩ 11).1.value_ = 7 ∧
    (AbsChangeLimiter.output ⟨false, -10, 20, 5, 42, 3, 7⟩ 11).2 = 7 :=
  C4_disabled_bypass ⟨false, -10, 20, 5, 42, 3, 7⟩ 11 rfl

/-- Claim C5: for both variants, when enabled with a nonzero period and the
unsigned elapsed time `ms - prev_time_` below the period, a call to `output`
leaves the value unchanged and returns the unchanged value. -/
theorem C5_period_gated (s : ChangeLimiter) (ms : Nat) (he : s.enabled_ = true)
    (hp : s.period_ ≠ 0) (hl : elapsedTime ms s.prev_time_ < s.period_) :
    (ChangeLimiter.output s ms).1.value_ = s.value_ ∧
    (ChangeLimiter.output s ms).2 = s.value_ ∧
    (AbsChangeLimiter.output s ms).1.value_ = s.value_ ∧
    (AbsChangeLimiter.output s ms).2 = s.value_ := by
  by_cases h0 : s.prev_time_ = 0
  · rw [ChangeLimiter.output_first s ms he h0 hp, AbsChangeLimiter.output_first_abs s ms he h0 hp]
    exact ⟨rfl, rfl, rfl, rfl⟩
  · rw [ChangeLimiter.output_gated s ms he h0 hp hl,
      AbsChangeLimiter.output_gated_abs s ms he h0 hp hl]
    exact ⟨rfl, rfl, rfl, rfl⟩

theorem C5_period_gated_witness :
    (ChangeLimiter.output ⟨true, -10, 20, 5, 10, 3, 7⟩ 12).1.value_ = 3 ∧
    (ChangeLimiter.output ⟨true, -10, 20, 5, 10, 3, 7⟩ 12).2 = 3 ∧
    (AbsChangeLimiter.output ⟨true, -10, 20, 5, 10, 3, 7⟩ 12).1.value_ = 3 ∧
    (AbsChangeLimiter.output ⟨true, -10, 20, 5, 10, 3, 7⟩ 12).2 = 3 :=
  C5_period_gated ⟨true, -10, 20, 5, 10, 3, 7⟩ 12 rfl (by decide) (by decide)

/-- Claim C6: for both limiter variants, when enabled and `prev_time_` still
holds the sentinel 0, a call at timestamp `ms` records `prev_time_ = ms` and
does not move the value unless the period is 0, in which case the update
happens on this same call; a first call at timestamp 0 leaves the sentinel
in place. -/
theorem C6_sentinel_first_call (s : ChangeLimiter) (ms : Nat) (he : s.enabled_ = true)
    (h0 : s.prev_time_ = 0) :
    (ChangeLimiter.output s ms).1.prev_time_ = ms ∧
    (s.period_ ≠ 0 → (ChangeLimiter.output s ms).1.value_ = s.value_) ∧
    (s.period_ = 0 → (ChangeLimiter.output s ms).1.value_ = ChangeLimiter.stepValue s) ∧
    (ms = 0 → (ChangeLimiter.output s ms).1.prev_time_ = 0) ∧
    (AbsChangeLimiter.output s ms).1.prev_time_ = ms ∧
    (s.period_ ≠ 0 → (AbsChangeLimiter.output s ms).1.value_ = s.value_) ∧
    (s.period_ = 0 →
      (AbsChangeLimiter.output s ms).1.value_ = AbsChangeLimiter.stepValue s) ∧
    (ms = 0 → (AbsChangeLimiter.output s ms).1.prev_time_ = 0) := by
  by_cases hp : s.period_ = 0
  · rw [ChangeLimiter.output_fire s ms he (Or.inl hp),
      AbsChangeLimiter.output_fire_abs s ms he (Or.inl hp)]
    exact ⟨rfl, fun h => absurd hp h, fun _ => rfl, fun h => h,
      rfl, fun h => absurd hp h, fun _ => rfl, fun h => h⟩
  · rw [ChangeLimiter.output_first s ms he h0 hp,
      AbsChangeLimiter.output_first_abs s ms he h0 hp]
    exact ⟨rfl, fun _ => rfl, fun h => absurd h hp, fun h => h,
      rfl, fun _ => rfl, fun h => absurd h hp, fun h => h⟩

theorem C6_sentinel_first_call_witness :
    (ChangeLimiter.output ⟨true, -10, 20, 5, 0, 3, 7⟩ 9).1.prev_time_ = 9 ∧
    ((5 : Nat) ≠ 0 → (ChangeLimiter.output ⟨true, -10, 20, 5, 0, 3, 7⟩ 9).1.value_ = 3) ∧
    ((5 : Nat) = 0 →
      (ChangeLimiter.output ⟨true, -10, 20, 5, 0, 3, 7⟩ 9).1.value_ =
        ChangeLimiter.stepValue ⟨true, -10, 20, 5, 0, 3, 7⟩) ∧
    ((9 : Nat) = 0 → (ChangeLimiter.output ⟨true, -10, 20, 5, 0, 3, 7⟩ 9).1.prev_time_ = 0) ∧
    (AbsChangeLimiter.output ⟨true, -10, 20, 5, 0, 3, 7⟩ 9).1.prev_time_ = 9 ∧
    ((5 : Nat) ≠ 0 →
      (AbsChangeLimiter.output ⟨true, -10, 20, 5, 0, 3, 7⟩ 9).1.value_ = 3) ∧
    ((5 : Nat) = 0 →
      (AbsChangeLimiter.output ⟨true, -10, 20, 5, 0, 3, 7⟩ 9).1.value_ =
        AbsChangeLimiter.stepValue ⟨true, -10, 20, 5, 0, 3, 7⟩) ∧
    ((9 : Nat) = 0 →
      (AbsChangeLimiter.output ⟨true, -10, 20, 5, 0, 3, 7⟩ 9).1.prev_time_ = 0) :=
  C6_sentinel_first_call ⟨true, -10, 20, 5, 0, 3, 7⟩ 9 rfl rfl

/-- Claim C7: the limit setters normalize signs for every pair of arguments:
the base class stores `-|maxFalling| ≤ 0` and `|maxRising| ≥ 0`, the derived
class stores `|maxFalling| ≥ 0` and `|maxRising| ≥ 0`; in particular
`set_limit(-5, -20)` yields (-5, 20) resp. (5, 20). -/
theorem C7_setter_normalization :
    (∀ (s : ChangeLimiter) (a b : Int),
        (s.set_limit a b).max_falling_ = -|a| ∧ (s.set_limit a b).max_falling_ ≤ 0 ∧
        (s.set_limit a b).max_rising_ = |b| ∧ 0 ≤ (s.set_limit a b).max_rising_ ∧
        (AbsChangeLimiter.set_limit s a b).max_falling_ = |a| ∧
        0 ≤ (AbsChangeLimiter.set_limit s a b).max_falling_ ∧
        (AbsChangeLimiter.set_limit s a b).max_rising_ = |b| ∧
        0 ≤ (AbsChangeLimiter.set_limit s a b).max_rising_) ∧
    (∀ s : ChangeLimiter,
        (s.set_limit (-5) (-20)).max_falling_ = -5 ∧
        (s.set_limit (-5) (-20)).max_rising_ = 20 ∧
        (AbsChangeLimiter.set_limit s (-5) (-20)).max_falling_ = 5 ∧
        (AbsChangeLimiter.set_limit s (-5) (-20)).max_rising_ = 20) := by
  constructor
  · intro s a b
    exact ⟨rfl, neg_nonpos.mpr (abs_nonneg a), rfl, abs_nonneg b,
      rfl, abs_nonneg a, rfl, abs_nonneg b⟩
  · intro s
    refine ⟨?_, ?_, ?_, ?_⟩ <;>
      simp [ChangeLimiter.set_limit, AbsChangeLimiter.set_limit]

/-- Claim C9: calling `output` on the never-initialized (as-if-zero) instance
is safe for both variants: it returns 0 and establishes value = target = 0. -/
theorem C9_pre_begin_safe (ms : Nat) :
    (ChangeLimiter.output zeroState ms).2 = 0 ∧
    (ChangeLimiter.output zeroState ms).1.value_ = 0 ∧
    (ChangeLimiter.output zeroState ms).1.target_ = 0 ∧
    (AbsChangeLimiter.output zeroState ms).2 = 0 ∧
    (AbsChangeLimiter.output zeroState ms).1.value_ = 0 ∧
    (AbsChangeLimiter.output zeroState ms).1.target_ = 0 :=
  ⟨rfl, rfl, rfl, rfl, rfl, rfl⟩

/-- Claim C10: elapsed time is the unsigned wraparound difference modulo 2^32;
for an enabled limiter with nonzero period and non-sentinel `prev_time_`, a
timestamp numerically smaller than `prev_time_` yields the large wrapped
difference `2^32 - (prev_time_ - ms)`, and whenever that is at least the
period the update fires: the value advances one step and `prev_time_ := ms`,
in both variants. -/
theorem C10_wraparound_fires (s : ChangeLimiter) (ms : Nat) (he : s.enabled_ = true)
    (hp : s.period_ ≠ 0) (h0 : s.prev_time_ ≠ 0) (hlt : ms < s.prev_time_)
    (hb : s.prev_time_ < ULONG_MOD)
    (hfire : s.period_ ≤ elapsedTime ms s.prev_time_) :
    elapsedTime ms s.prev_time_ = ULONG_MOD - (s.prev_time_ - ms) ∧
    (ChangeLimiter.output s ms).1.prev_time_ = ms ∧
    (ChangeLimiter.output s ms).1.value_ = ChangeLimiter.stepValue s ∧
    (AbsChangeLimiter.output s ms).1.prev_time_ = ms ∧
    (AbsChangeLimiter.output s ms).1.value_ = AbsChangeLimiter.stepValue s := by
  rw [ChangeLimiter.output_fire s ms he (Or.inr ⟨h0, hfire⟩),
    AbsChangeLimiter.output_fire_abs s ms he (Or.inr ⟨h0, hfire⟩)]
  exact ⟨elapsed_wrap hlt hb, rfl, rfl, rfl, rfl⟩

theorem C10_wraparound_fires_witness :
    elapsedTime 5 100 = 4294967201 ∧
    (ChangeLimiter.output ⟨true, 10, 10, 50, 100, 3, 7⟩ 5).1.prev_time_ = 5 ∧
    (ChangeLimiter.output ⟨true, 10, 10, 50, 100, 3, 7⟩ 5).1.value_ =
      ChangeLimiter.stepValue ⟨true, 10, 10, 50, 100, 3, 7⟩ ∧
    (AbsChangeLimiter.output ⟨true, 10, 10, 50, 100, 3, 7⟩ 5).1.prev_time_ = 5 ∧
    (AbsChangeLimiter.output ⟨true, 10, 10, 50, 100, 3, 7⟩ 5).1.value_ =
      AbsChangeLimiter.stepValue ⟨true, 10, 10, 50, 100, 3, 7⟩ :=
  C10_wraparound_fires ⟨true, 10, 10, 50, 100, 3, 7⟩ 5 rfl (by decide) (by decide)
    (by decide) (by decide) (by decide)

/-- Bitwise OR of `Int` sign values, evaluated case by case (the kernel does
not reduce `Nat.bitwise`, so these are proved by simp). -/
theorem lor_zero_zero : Int.lor 0 0 = 0 := by
  show Int.lor (Int.ofNat 0) (Int.ofNat 0) = Int.ofNat 0
  simp [Int.lor]

theorem lor_zero_one : Int.lor 0 1 = 1 := by
  show Int.lor (Int.ofNat 0) (Int.ofNat 1) = Int.ofNat 1
  simp [Int.lor]

theorem lor_one_zero : Int.lor 1 0 = 1 := by
  show Int.lor (Int.ofNat 1) (Int.ofNat 0) = Int.ofNat 1
  simp [Int.lor]

theorem lor_one_one : Int.lor 1 1 = 1 := by
  show Int.lor (Int.ofNat 1) (Int.ofNat 1) = Int.ofNat 1
  simp [Int.lor]

theorem lor_negOne_zero : Int.lor (-1) 0 = -1 := by
  show Int.lor (Int.negSucc 0) (Int.ofNat 0) = Int.negSucc 0
  simp [Int.lor, Nat.ldiff, Nat.bitwise]

theorem lor_zero_negOne : Int.lor 0 (-1) = -1 := by
  show Int.lor (Int.ofNat 0) (Int.negSucc 0) = Int.negSucc 0
  simp [Int.lor, Nat.ldiff, Nat.bitwise]

theorem lor_negOne_negOne : Int.lor (-1) (-1) = -1 := by
  show Int.lor (Int.negSucc 0) (Int.negSucc 0) = Int.negSucc 0
  simp [Int.lor]

/-- Claim C8: over sign values, when `sign target * sign value != -1` (the
non-opposite-signs branch), the direction `sign value | sign target` computed
with bitwise OR equals `sign value` when the value is nonzero, otherwise
`sign target` when the target is nonzero, and 0 when both are zero. -/
theorem C8_dir_bitwise_or (v t : Int) (h : sign t * sign v ≠ -1) :
    Int.lor (sign v) (sign t) =
      (if v ≠ 0 then sign v else if t ≠ 0 then sign t else 0) := by
  rcases lt_trichotomy v 0 with hv | hv | hv <;>
    rcases lt_trichotomy t 0 with ht | ht | ht
  · rw [sign_of_neg hv, sign_of_neg ht, if_pos hv.ne]
    exact lor_negOne_negOne
  · rw [sign_of_neg hv, sign_of_zero ht, if_pos hv.ne]
    exact lor_negOne_zero
  · exact absurd (by rw [sign_of_pos ht, sign_of_neg hv]; norm_num) h
  · rw [sign_of_zero hv, sign_of_neg ht, if_neg (by simpa using hv), if_pos ht.ne]
    exact lor_zero_negOne
  · rw [sign_of_zero hv, sign_of_zero ht, if_neg (by simpa using hv),
      if_neg (by simpa using ht)]
    exact lor_zero_zero
  · rw [sign_of_zero hv, sign_of_pos ht, if_neg (by simpa using hv), if_pos ht.ne']
    exact lor_zero_one
  · exact absurd (by rw [sign_of_neg ht, sign_of_pos hv]; norm_num) h
  · rw [sign_of_pos hv, sign_of_zero ht, if_pos hv.ne']
    exact lor_one_zero
  · rw [sign_of_pos hv, sign_of_pos ht, if_pos hv.ne']
    exact lor_one_one

theorem C8_dir_bitwise_or_witness :
    (sign (7 : Int) * sign (0 : Int) ≠ -1) ∧
    Int.lor (sign (0 : Int)) (sign (7 : Int)) =
      (if (0 : Int) ≠ 0 then sign (0 : Int) else if (7 : Int) ≠ 0 then sign (7 : Int) else 0) :=
  ⟨by decide, C8_dir_bitwise_or 0 7 (by decide)⟩

/-! ### Runs of successive calls -/

theorem runCL_nil (s : ChangeLimiter) : runCL s [] = s := rfl

theorem runCL_cons (s : ChangeLimiter) (t : Nat) (ts : List Nat) :
    runCL s (t :: ts) = runCL (ChangeLimiter.output s t).1 ts := rfl

theorem runAbs_nil (s : ChangeLimiter) : runAbs s [] = s := rfl

theorem runAbs_cons (s : ChangeLimiter) (t : Nat) (ts : List Nat) :
    runAbs s (t :: ts) = runAbs (AbsChangeLimiter.output s t).1 ts := rfl

theorem runAbs_append (s : ChangeLimiter) (ts1 ts2 : List Nat) :
    runAbs s (ts1 ++ ts2) = runAbs (runAbs s ts1) ts2 := by
  simp [runAbs]

/-- Once the value equals the target, the plain update leaves it in place. -/
theorem ChangeLimiter.stepValue_fixed (s : ChangeLimiter) (h : s.value_ = s.target_) :
    ChangeLimiter.stepValue s = s.value_ := by
  unfold ChangeLimiter.stepValue
  rw [h]
  simp

/-- Once the value equals the target, the magnitude update leaves it in place. -/
theorem AbsChangeLimiter.stepValue_fixed_abs (s : ChangeLimiter) (h : s.value_ = s.target_) :
    AbsChangeLimiter.stepValue s = s.value_ := by
  unfold AbsChangeLimiter.stepValue
  rw [h]
  have hs : ¬(sign s.target_ * sign s.target_ = -1) := by
    rcases lt_trichotomy s.target_ 0 with h1 | h1 | h1
    · rw [sign_of_neg h1]
      norm_num
    · rw [sign_of_zero h1]
      norm_num
    · rw [sign_of_pos h1]
      norm_num
  rw [if_neg hs]
  simp

theorem ChangeLimiter.output_keeps (s : ChangeLimiter) (ms : Nat)
    (h : s.value_ = s.target_) :
    (ChangeLimiter.output s ms).1.value_ = (ChangeLimiter.output s ms).1.target_ ∧
    (ChangeLimiter.output s ms).1.target_ = s.target_ ∧
    (ChangeLimiter.output s ms).2 = s.target_ := by
  rcases ChangeLimiter.output_shape s ms with hs | hs | hs | hs <;> rw [hs]
  · exact ⟨rfl, rfl, rfl⟩
  · exact ⟨h, rfl, h⟩
  · exact ⟨h, rfl, h⟩
  · have e : ChangeLimiter.stepValue s = s.target_ := by
      rw [ChangeLimiter.stepValue_fixed s h, h]
    exact ⟨e, rfl, e⟩

theorem AbsChangeLimiter.output_keeps_abs (s : ChangeLimiter) (ms : Nat)
    (h : s.value_ = s.target_) :
    (AbsChangeLimiter.output s ms).1.value_ = (AbsChangeLimiter.output s ms).1.target_ ∧
    (AbsChangeLimiter.output s ms).1.target_ = s.target_ ∧
    (AbsChangeLimiter.output s ms).2 = s.target_ := by
  rcases AbsChangeLimiter.output_shape_abs s ms with hs | hs | hs | hs <;> rw [hs]
  · exact ⟨rfl, rfl, rfl⟩
  · exact ⟨h, rfl, h⟩
  · exact ⟨h, rfl, h⟩
  · have e : AbsChangeLimiter.stepValue s = s.target_ := by
      rw [AbsChangeLimiter.stepValue_fixed_abs s h, h]
    exact ⟨e, rfl, e⟩

theorem runCL_keeps (ts : List Nat) :
    ∀ s : ChangeLimiter, s.value_ = s.target_ →
      (runCL s ts).value_ = s.target_ ∧ (runCL s ts).target_ = s.target_ := by
  induction ts with
  | nil => exact fun s h => ⟨h, rfl⟩
  | cons t ts ih =>
      intro s h
      rw [runCL_cons]
      have hk := ChangeLimiter.output_keeps s t h
      obtain ⟨hv, ht⟩ := ih _ hk.1
      exact ⟨hv.trans hk.2.1, ht.trans hk.2.1⟩

theorem runAbs_keeps (ts : List Nat) :
    ∀ s : ChangeLimiter, s.value_ = s.target_ →
      (runAbs s ts).value_ = s.target_ ∧ (runAbs s ts).target_ = s.target_ := by
  induction ts with
  | nil => exact fun s h => ⟨h, rfl⟩
  | cons t ts ih =>
      intro s h
      rw [runAbs_cons]
      have hk := AbsChangeLimiter.output_keeps_abs s t h
      obtain ⟨hv, ht⟩ := ih _ hk.1
      exact ⟨hv.trans hk.2.1, ht.trans hk.2.1⟩

/-! ### Claim C3: single-step monotonicity of the plain limiter -/

/-- The delta-clamped step of the plain limiter never moves the value past
the target and never increases the distance to it. -/
theorem ChangeLimiter.stepValue_no_overshoot (s : ChangeLimiter)
    (hf : s.max_falling_ ≤ 0) (hr : 0 ≤ s.max_rising_) :
    (ChangeLimiter.stepValue s - s.target_).natAbs ≤ (s.value_ - s.target_).natAbs ∧
    (0 ≤ s.target_ - s.value_ → 0 ≤ s.target_ - ChangeLimiter.stepValue s) ∧
    (s.target_ - s.value_ ≤ 0 → s.target_ - ChangeLimiter.stepValue s ≤ 0) := by
  simp only [ChangeLimiter.stepValue]
  split_ifs with h1 h2 <;> constructor <;> try constructor
  all_goals omega

/-- Claim C3: with `maxFalling ≤ 0 ≤ maxRising` (as the base setter
establishes), a single `output` call never moves the value past the target:
the distance to the target never grows and the value never crosses to the
other side of the target. -/
theorem C3_never_overshoots (s : ChangeLimiter) (ms : Nat)
    (hf : s.max_falling_ ≤ 0) (hr : 0 ≤ s.max_rising_) :
    ((ChangeLimiter.output s ms).1.value_ - s.target_).natAbs ≤
      (s.value_ - s.target_).natAbs ∧
    (0 ≤ s.target_ - s.value_ → 0 ≤ s.target_ - (ChangeLimiter.output s ms).1.value_) ∧
    (s.target_ - s.value_ ≤ 0 → s.target_ - (ChangeLimiter.output s ms).1.value_ ≤ 0) := by
  rcases ChangeLimiter.output_shape s ms with hs | hs | hs | hs <;> rw [hs]
  · refine ⟨?_, fun _ => ?_, fun _ => ?_⟩ <;> simp
  · exact ⟨le_refl _, fun h => h, fun h => h⟩
  · exact ⟨le_refl _, fun h => h, fun h => h⟩
  · exact ChangeLimiter.stepValue_no_overshoot s hf hr

theorem C3_never_overshoots_witness :
    ((ChangeLimiter.output ⟨true, -10, 100, 0, 0, -34, 130⟩ 3).1.value_ - 130).natAbs ≤
      ((-34 : Int) - 130).natAbs ∧
    ((0 : Int) ≤ 130 - (-34) →
      0 ≤ 130 - (ChangeLimiter.output ⟨true, -10, 100, 0, 0, -34, 130⟩ 3).1.value_) ∧
    ((130 : Int) - (-34) ≤ 0 →
      130 - (ChangeLimiter.output ⟨true, -10, 100, 0, 0, -34, 130⟩ 3).1.value_ ≤ 0) :=
  C3_never_overshoots ⟨true, -10, 100, 0, 0, -34, 130⟩ 3 (by norm_num) (by norm_num)

/-! ### Claim C1: the zero-crossing scenario -/

/-- Claim C1: the AbsoluteStepLimiter with `maxFalling = 10`,
`maxRising = 100`, `period = 0`, enabled, `value = -34`, `target = 130`
produces, under successive calls at arbitrary timestamps (period 0 fires on
every call), the value sequence -24, -14, -4, 0, 100, 130; every further
call returns 130. -/
theorem C1_zero_crossing (t1 t2 t3 t4 t5 t6 t7 : Nat) (ts : List Nat) :
    (AbsChangeLimiter.output (runAbs ⟨true, 10, 100, 0, 0, -34, 130⟩ []) t1).2 = -24 ∧
    (AbsChangeLimiter.output (runAbs ⟨true, 10, 100, 0, 0, -34, 130⟩ [t1]) t2).2 = -14 ∧
    (AbsChangeLimiter.output (runAbs ⟨true, 10, 100, 0, 0, -34, 130⟩ [t1, t2]) t3).2 = -4 ∧
    (AbsChangeLimiter.output (runAbs ⟨true, 10, 100, 0, 0, -34, 130⟩ [t1, t2, t3]) t4).2 = 0 ∧
    (AbsChangeLimiter.output (runAbs ⟨true, 10, 100, 0, 0, -34, 130⟩ [t1, t2, t3, t4]) t5).2
      = 100 ∧
    (AbsChangeLimiter.output
      (runAbs ⟨true, 10, 100, 0, 0, -34, 130⟩ [t1, t2, t3, t4, t5]) t6).2 = 130 ∧
    (AbsChangeLimiter.output
      (runAbs ⟨true, 10, 100, 0, 0, -34, 130⟩ ([t1, t2, t3, t4, t5, t6] ++ ts)) t7).2 = 130 := by
  have o1 : (AbsChangeLimiter.output ⟨true, 10, 100, 0, 0, -34, 130⟩ t1).1
      = ⟨true, 10, 100, 0, t1, -24, 130⟩ := by
    rw [AbsChangeLimiter.output_fire_abs _ _ rfl (Or.inl rfl)]
    norm_num [AbsChangeLimiter.stepValue, sign]
  have o2 : (AbsChangeLimiter.output ⟨true, 10, 100, 0, t1, -24, 130⟩ t2).1
      = ⟨true, 10, 100, 0, t2, -14, 130⟩ := by
    rw [AbsChangeLimiter.output_fire_abs _ _ rfl (Or.inl rfl)]
    norm_num [AbsChangeLimiter.stepValue, sign]
  have o3 : (AbsChangeLimiter.output ⟨true, 10, 100, 0, t2, -14, 130⟩ t3).1
      = ⟨true, 10, 100, 0, t3, -4, 130⟩ := by
    rw [AbsChangeLimiter.output_fire_abs _ _ rfl (Or.inl rfl)]
    norm_num [AbsChangeLimiter.stepValue, sign]
  have o4 : (AbsChangeLimiter.output ⟨true, 10, 100, 0, t3, -4, 130⟩ t4).1
      = ⟨true, 10, 100, 0, t4, 0, 130⟩ := by
    rw [AbsChangeLimiter.output_fire_abs _ _ rfl (Or.inl rfl)]
    norm_num [AbsChangeLimiter.stepValue, sign]
  have o5 : (AbsChangeLimiter.output ⟨true, 10, 100, 0, t4, 0, 130⟩ t5).1
      = ⟨true, 10, 100, 0, t5, 100, 130⟩ := by
    rw [AbsChangeLimiter.output_fire_abs _ _ rfl (Or.inl rfl)]
    norm_num [AbsChangeLimiter.stepValue, sign, lor_zero_one]
  have o6 : (AbsChangeLimiter.output ⟨true, 10, 100, 0, t5, 100, 130⟩ t6).1
      = ⟨true, 10, 100, 0, t6, 130, 130⟩ := by
    rw [AbsChangeLimiter.output_fire_abs _ _ rfl (Or.inl rfl)]
    norm_num [AbsChangeLimiter.stepValue, sign, lor_one_one]
  have v1 : (AbsChangeLimiter.output ⟨true, 10, 100, 0, 0, -34, 130⟩ t1).2 = -24 := by
    rw [AbsChangeLimiter.output_fire_abs _ _ rfl (Or.inl rfl)]
    norm_num [AbsChangeLimiter.stepValue, sign]
  have v2 : (AbsChangeLimiter.output ⟨true, 10, 100, 0, t1, -24, 130⟩ t2).2 = -14 := by
    rw [AbsChangeLimiter.output_fire_abs _ _ rfl (Or.inl rfl)]
    norm_num [AbsChangeLimiter.stepValue, sign]
  have v3 : (AbsChangeLimiter.output ⟨true, 10, 100, 0, t2, -14, 130⟩ t3).2 = -4 := by
    rw [AbsChangeLimiter.output_fire_abs _ _ rfl (Or.inl rfl)]
    norm_num [AbsChangeLimiter.stepValue, sign]
  have v4 : (AbsChangeLimiter.output ⟨true, 10, 100, 0, t3, -4, 130⟩ t4).2 = 0 := by
    rw [AbsChangeLimiter.output_fire_abs _ _ rfl (Or.inl rfl)]
    norm_num [AbsChangeLimiter.stepValue, sign]
  have v5 : (AbsChangeLimiter.output ⟨true, 10, 100, 0, t4, 0, 130⟩ t5).2 = 100 := by
    rw [AbsChangeLimiter.output_fire_abs _ _ rfl (Or.inl rfl)]
    norm_num [AbsChangeLimiter.stepValue, sign, lor_zero_one]
  have v6 : (AbsChangeLimiter.output ⟨true, 10, 100, 0, t5, 100, 130⟩ t6).2 = 130 := by
    rw [AbsChangeLimiter.output_fire_abs _ _ rfl (Or.inl rfl)]
    norm_num [AbsChangeLimiter.stepValue, sign, lor_one_one]
  have E6 : runAbs ⟨true, 10, 100, 0, 0, -34, 130⟩ [t1, t2, t3, t4, t5, t6]
      = ⟨true, 10, 100, 0, t6, 130, 130⟩ := by
    rw [runAbs_cons, o1, runAbs_cons, o2, runAbs_cons, o3, runAbs_cons, o4,
      runAbs_cons, o5, runAbs_cons, o6, runAbs_nil]
  refine ⟨?_, ?_, ?_, ?_, ?_, ?_, ?_⟩
  · rw [runAbs_nil]
    exact v1
  · rw [runAbs_cons, o1, runAbs_nil]
    exact v2
  · rw [runAbs_cons, o1, runAbs_cons, o2, runAbs_nil]
    exact v3
  · rw [runAbs_cons, o1, runAbs_cons, o2, runAbs_cons, o3, runAbs_nil]
    exact v4
  · rw [runAbs_cons, o1, runAbs_cons, o2, runAbs_cons, o3, runAbs_cons, o4, runAbs_nil]
    exact v5
  · rw [runAbs_cons, o1, runAbs_cons, o2, runAbs_cons, o3, runAbs_cons, o4,
      runAbs_cons, o5, runAbs_nil]
    exact v6
  · rw [runAbs_append, E6]
    have hk := runAbs_keeps ts ⟨true, 10, 100, 0, t6, 130, 130⟩ rfl
    have hu : (runAbs ⟨true, 10, 100, 0, t6, 130, 130⟩ ts).value_
        = (runAbs ⟨true, 10, 100, 0, t6, 130, 130⟩ ts).target_ := hk.1.trans hk.2.symm
    have := AbsChangeLimiter.output_keeps_abs _ t7 hu
    exact this.2.2.trans hk.2

/-! ### Arithmetic for the convergence bound -/

theorem sign_zero' : sign 0 = 0 := rfl

theorem Sched_cons {p lo t : Nat} {ts : List Nat} :
    Sched p lo (t :: ts) ↔ lo ≤ t ∧ t < ULONG_MOD ∧ Sched p (t + max p 1) ts :=
  Iff.rfl

theorem ceilDivN_zero (b : Nat) : ceilDivN 0 b = 0 := by
  unfold ceilDivN
  cases b with
  | zero => rfl
  | succ n => exact Nat.div_eq_of_lt (by omega)

theorem ceilDivN_pos {a b : Nat} (hb : 0 < b) (ha : 0 < a) : 0 < ceilDivN a b :=
  Nat.div_pos (by omega) hb

theorem ceilDivN_mono {a a' b : Nat} (h : a ≤ a') : ceilDivN a b ≤ ceilDivN a' b :=
  Nat.div_le_div_right (by omega)

theorem ceilDivN_dec {a a' b : Nat} (hb : 0 < b) (h : a' + b ≤ a) :
    ceilDivN a' b < ceilDivN a b := by
  have h1 : ceilDivN a' b + 1 = (a' + b - 1 + b) / b := (Nat.add_div_right _ hb).symm
  have h2 : (a' + b - 1 + b) / b ≤ (a + b - 1) / b := Nat.div_le_div_right (by omega)
  unfold ceilDivN at *
  omega

theorem snapIndicator_le_one (t v : Int) : snapIndicator t v ≤ 1 := by
  unfold snapIndicator
  split <;> omega

theorem slack_le_two (s : ChangeLimiter) (lo : Nat) : slack s lo ≤ 2 := by
  unfold slack
  split_ifs <;> omega

theorem target_reached_of_dist {s : ChangeLimiter} (h : distTo s = 0) :
    s.target_reached = true := by
  unfold distTo at h
  have hv : s.value_ = s.target_ := by omega
  simp [ChangeLimiter.target_reached, hv]

/-- One firing plain step either reaches the target exactly or shrinks the
distance by at least the smaller limit magnitude. -/
theorem ChangeLimiter.step_dec (s : ChangeLimiter) (hf : s.max_falling_ < 0)
    (hr : 0 < s.max_rising_) :
    (s.target_ - ChangeLimiter.stepValue s).natAbs = 0 ∨
    (s.target_ - ChangeLimiter.stepValue s).natAbs + minLimit s
      ≤ (s.target_ - s.value_).natAbs := by
  simp only [ChangeLimiter.stepValue, minLimit]
  split_ifs with h1 h2
  · right
    omega
  · right
    omega
  · left
    omega

/-- One firing absolute step either reaches the target exactly, or shrinks
the distance by at least the smaller limit magnitude without creating a new
zero-crossing, or is the (at most one) snap-to-zero step, which clears the
zero-crossing without increasing the distance. -/
theorem AbsChangeLimiter.step_dec_abs (s : ChangeLimiter) (hf : 0 < s.max_falling_)
    (hr : 0 < s.max_rising_) (hne : s.value_ ≠ s.target_) :
    ((s.target_ - AbsChangeLimiter.stepValue s).natAbs = 0 ∧
      snapIndicator s.target_ (AbsChangeLimiter.stepValue s) = 0) ∨
    ((s.target_ - AbsChangeLimiter.stepValue s).natAbs + minLimit s
        ≤ (s.target_ - s.value_).natAbs ∧
      snapIndicator s.target_ (AbsChangeLimiter.stepValue s)
        ≤ snapIndicator s.target_ s.value_) ∨
    (snapIndicator s.target_ s.value_ = 1 ∧
      snapIndicator s.target_ (AbsChangeLimiter.stepValue s) = 0 ∧
      (s.target_ - AbsChangeLimiter.stepValue s).natAbs
        ≤ (s.target_ - s.value_).natAbs) := by
  obtain ⟨e, mf, mr, p, pt, v, t⟩ := s
  simp only [AbsChangeLimiter.stepValue, minLimit] at *
  rcases lt_trichotomy v 0 with hv | hv | hv <;> rcases lt_trichotomy t 0 with ht | ht | ht
  · -- v < 0, t < 0
    rw [sign_of_neg hv, sign_of_neg ht, lor_negOne_negOne]
    simp only [Int.abs_eq_natAbs]
    split_ifs with hd hsnap h1 h2
    · exact absurd hd (by norm_num)
    · exact absurd hd (by norm_num)
    · refine Or.inr (Or.inl ⟨?_, ?_⟩)
      · omega
      · unfold snapIndicator
        simp only [sign]
        split_ifs <;> omega
    · refine Or.inr (Or.inl ⟨?_, ?_⟩)
      · omega
      · unfold snapIndicator
        simp only [sign]
        split_ifs <;> omega
    · refine Or.inl ⟨?_, ?_⟩
      · omega
      · unfold snapIndicator
        simp only [sign]
        split_ifs <;> omega
  · -- v < 0, t = 0
    subst ht
    rw [sign_of_neg hv, sign_zero', lor_negOne_zero]
    simp only [Int.abs_eq_natAbs]
    split_ifs with hd hsnap h1 h2
    · exact absurd hd (by norm_num)
    · exact absurd hd (by norm_num)
    · exact absurd h1 (by omega)
    · refine Or.inr (Or.inl ⟨?_, ?_⟩)
      · omega
      · unfold snapIndicator
        simp only [sign]
        split_ifs <;> omega
    · refine Or.inl ⟨?_, ?_⟩
      · omega
      · unfold snapIndicator
        simp only [sign]
        split_ifs <;> omega
  · -- v < 0, 0 < t: opposite signs, falling toward zero
    rw [sign_of_neg hv, sign_of_pos ht]
    simp only [Int.abs_eq_natAbs]
    split_ifs with hd hsnap h1 h2
    · refine Or.inr (Or.inr ⟨?_, ?_, ?_⟩)
      · unfold snapIndicator
        simp only [sign]
        split_ifs <;> omega
      · unfold snapIndicator
        simp only [sign]
        split_ifs <;> omega
      · omega
    · refine Or.inr (Or.inl ⟨?_, ?_⟩)
      · omega
      · unfold snapIndicator
        simp only [sign]
        split_ifs <;> omega
    · exact absurd (by norm_num) hd
    · exact absurd (by norm_num) hd
    · exact absurd (by norm_num) hd
  · -- v = 0, t < 0
    subst hv
    rw [sign_zero', sign_of_neg ht, lor_zero_negOne]
    simp only [Int.abs_eq_natAbs]
    split_ifs with hd hsnap h1 h2
    · exact absurd hd (by norm_num)
    · exact absurd hd (by norm_num)
    · refine Or.inr (Or.inl ⟨?_, ?_⟩)
      · omega
      · unfold snapIndicator
        simp only [sign]
        split_ifs <;> omega
    · exact absurd h2 (by omega)
    · refine Or.inl ⟨?_, ?_⟩
      · omega
      · unfold snapIndicator
        simp only [sign]
        split_ifs <;> omega
  · -- v = 0, t = 0: excluded, the value already equals the target
    exact absurd (hv.trans ht.symm) hne
  · -- v = 0, 0 < t
    subst hv
    rw [sign_zero', sign_of_pos ht, lor_zero_one]
    simp only [Int.abs_eq_natAbs]
    split_ifs with hd hsnap h1 h2
    · exact absurd hd (by norm_num)
    · exact absurd hd (by norm_num)
    · refine Or.inr (Or.inl ⟨?_, ?_⟩)
      · omega
      · unfold snapIndicator
        simp only [sign]
        split_ifs <;> omega
    · exact absurd h2 (by omega)
    · refine Or.inl ⟨?_, ?_⟩
      · omega
      · unfold snapIndicator
        simp only [sign]
        split_ifs <;> omega
  · -- 0 < v, t < 0: opposite signs, falling toward zero
    rw [sign_of_pos hv, sign_of_neg ht]
    simp only [Int.abs_eq_natAbs]
    split_ifs with hd hsnap h1 h2
    · refine Or.inr (Or.inr ⟨?_, ?_, ?_⟩)
      · unfold snapIndicator
        simp only [sign]
        split_ifs <;> omega
      · unfold snapIndicator
        simp only [sign]
        split_ifs <;> omega
      · omega
    · refine Or.inr (Or.inl ⟨?_, ?_⟩)
      · omega
      · unfold snapIndicator
        simp only [sign]
        split_ifs <;> omega
    · exact absurd (by norm_num) hd
    · exact absurd (by norm_num) hd
    · exact absurd (by norm_num) hd
  · -- 0 < v, t = 0
    subst ht
    rw [sign_of_pos hv, sign_zero', lor_one_zero]
    simp only [Int.abs_eq_natAbs]
    split_ifs with hd hsnap h1 h2
    · exact absurd hd (by norm_num)
    · exact absurd hd (by norm_num)
    · exact absurd h1 (by omega)
    · refine Or.inr (Or.inl ⟨?_, ?_⟩)
      · omega
      · unfold snapIndicator
        simp only [sign]
        split_ifs <;> omega
    · refine Or.inl ⟨?_, ?_⟩
      · omega
      · unfold snapIndicator
        simp only [sign]
        split_ifs <;> omega
  · -- 0 < v, 0 < t
    rw [sign_of_pos hv, sign_of_pos ht, lor_one_one]
    simp only [Int.abs_eq_natAbs]
    split_ifs with hd hsnap h1 h2
    · exact absurd hd (by norm_num)
    · exact absurd hd (by norm_num)
    · refine Or.inr (Or.inl ⟨?_, ?_⟩)
      · omega
      · unfold snapIndicator
        simp only [sign]
        split_ifs <;> omega
    · refine Or.inr (Or.inl ⟨?_, ?_⟩)
      · omega
      · unfold snapIndicator
        simp only [sign]
        split_ifs <;> omega
    · refine Or.inl ⟨?_, ?_⟩
      · omega
      · unfold snapIndicator
        simp only [sign]
        split_ifs <;> omega

theorem slack_p0 (s : ChangeLimiter) (lo : Nat) (hp : s.period_ = 0) :
    slack s lo = 0 := by
  unfold slack
  rw [if_pos hp]

theorem slack_of_prev_ne (s : ChangeLimiter) (lo : Nat) (h0 : s.prev_time_ ≠ 0) :
    slack s lo = 0 := by
  unfold slack
  rw [if_pos h0]
  split <;> rfl

theorem slack_sentinel (s : ChangeLimiter) (lo : Nat) (hp : s.period_ ≠ 0)
    (h0 : s.prev_time_ = 0) :
    slack s lo = if lo = 0 then 2 else 1 := by
  unfold slack
  rw [if_neg hp, if_neg (fun hh => hh h0)]

/-- Convergence of the plain limiter along any valid schedule: with both
effective limits nonzero, after `ceil (dist / minLimit)` firing calls plus
the sentinel slack, the distance to the target is 0. -/
theorem convCL (ts : List Nat) :
    ∀ (s : ChangeLimiter) (lo : Nat),
      s.enabled_ = true → s.max_falling_ < 0 → 0 < s.max_rising_ →
      s.prev_time_ < ULONG_MOD →
      (s.prev_time_ ≠ 0 → s.prev_time_ + s.period_ ≤ lo) →
      Sched s.period_ lo ts →
      ceilDivN (distTo s) (minLimit s) + slack s lo ≤ ts.length →
      distTo (runCL s ts) = 0 := by
  induction ts with
  | nil =>
      intro s lo _ hf hr _ _ _ hlen
      rw [runCL_nil]
      by_contra hne
      have hm : 0 < minLimit s := by
        unfold minLimit
        omega
      have hpos := ceilDivN_pos hm (Nat.pos_of_ne_zero hne)
      simp only [List.length_nil] at hlen
      omega
  | cons t ts ih =>
      intro s lo he hf hr hb hprev hsched hlen
      obtain ⟨hlo, hts, hsched'⟩ := Sched_cons.mp hsched
      have hm : 0 < minLimit s := by
        unfold minLimit
        omega
      by_cases hdist : distTo s = 0
      · have hv : s.value_ = s.target_ := by
          unfold distTo at hdist
          omega
        have hk := runCL_keeps (t :: ts) s hv
        unfold distTo
        rw [hk.1, hk.2]
        simp
      · rw [runCL_cons]
        simp only [List.length_cons] at hlen
        by_cases hp : s.period_ = 0
        · rw [ChangeLimiter.output_fire s t he (Or.inl hp)]
          refine ih _ (t + max s.period_ 1) he hf hr hts ?_ hsched' ?_
          · intro _
            show t + s.period_ ≤ t + max s.period_ 1
            omega
          · show ceilDivN ((s.target_ - ChangeLimiter.stepValue s).natAbs) (minLimit s)
              + slack { s with prev_time_ := t, value_ := ChangeLimiter.stepValue s }
                  (t + max s.period_ 1) ≤ ts.length
            have hsl : slack { s with prev_time_ := t, value_ := ChangeLimiter.stepValue s }
                (t + max s.period_ 1) = 0 := slack_p0 _ _ hp
            rw [hsl]
            rcases ChangeLimiter.step_dec s hf hr with hstep | hstep
            · rw [hstep, ceilDivN_zero]
              omega
            · have hlt := ceilDivN_dec hm hstep
              unfold distTo at hlen
              omega
        · by_cases h0 : s.prev_time_ = 0
          · rw [ChangeLimiter.output_first s t he h0 hp]
            refine ih _ (t + max s.period_ 1) he hf hr hts ?_ hsched' ?_
            · intro _
              show t + s.period_ ≤ t + max s.period_ 1
              omega
            · show ceilDivN (distTo s) (minLimit s)
                + slack { s with prev_time_ := t } (t + max s.period_ 1) ≤ ts.length
              by_cases ht0 : t = 0
              · subst ht0
                have hlo0 : lo = 0 := by omega
                have h1 : slack s lo = 2 := by
                  rw [slack_sentinel s lo hp h0, if_pos hlo0]
                have h2 : slack { s with prev_time_ := (0 : Nat) } (0 + max s.period_ 1)
                    = 1 := by
                  rw [slack_sentinel { s with prev_time_ := (0 : Nat) }
                    (0 + max s.period_ 1) hp rfl]
                  rw [if_neg (by omega)]
                rw [h2]
                rw [h1] at hlen
                omega
              · have h2 : slack { s with prev_time_ := t } (t + max s.period_ 1) = 0 :=
                  slack_of_prev_ne _ _ ht0
                have h1 : 1 ≤ slack s lo := by
                  rw [slack_sentinel s lo hp h0]
                  split <;> omega
                rw [h2]
                omega
          · have hple : s.prev_time_ + s.period_ ≤ t := le_trans (hprev h0) hlo
            have hfire : s.period_ ≤ elapsedTime t s.prev_time_ := by
              rw [elapsed_of_le (by omega) hts]
              omega
            rw [ChangeLimiter.output_fire s t he (Or.inr ⟨h0, hfire⟩)]
            have ht0 : t ≠ 0 := by omega
            refine ih _ (t + max s.period_ 1) he hf hr hts ?_ hsched' ?_
            · intro _
              show t + s.period_ ≤ t + max s.period_ 1
              omega
            · show ceilDivN ((s.target_ - ChangeLimiter.stepValue s).natAbs) (minLimit s)
                + slack { s with prev_time_ := t, value_ := ChangeLimiter.stepValue s }
                    (t + max s.period_ 1) ≤ ts.length
              have hsl : slack { s with prev_time_ := t, value_ := ChangeLimiter.stepValue s }
                  (t + max s.period_ 1) = 0 := slack_of_prev_ne _ _ ht0
              rw [hsl]
              rw [slack_of_prev_ne s lo h0] at hlen
              rcases ChangeLimiter.step_dec s hf hr with hstep | hstep
              · rw [hstep, ceilDivN_zero]
                omega
              · have hlt := ceilDivN_dec hm hstep
                unfold distTo at hlen
                omega

/-- Convergence of the absolute limiter along any valid schedule: with both
limits nonzero, after `ceil (dist / minLimit)` firing calls, plus one for a
pending zero-crossing snap and the sentinel slack, the distance is 0. -/
theorem convAbs (ts : List Nat) :
    ∀ (s : ChangeLimiter) (lo : Nat),
      s.enabled_ = true → 0 < s.max_falling_ → 0 < s.max_rising_ →
      s.prev_time_ < ULONG_MOD →
      (s.prev_time_ ≠ 0 → s.prev_time_ + s.period_ ≤ lo) →
      Sched s.period_ lo ts →
      ceilDivN (distTo s) (minLimit s) + snapIndicator s.target_ s.value_
        + slack s lo ≤ ts.length →
      distTo (runAbs s ts) = 0 := by
  induction ts with
  | nil =>
      intro s lo _ hf hr _ _ _ hlen
      rw [runAbs_nil]
      by_contra hne
      have hm : 0 < minLimit s := by
        unfold minLimit
        omega
      have hpos := ceilDivN_pos hm (Nat.pos_of_ne_zero hne)
      simp only [List.length_nil] at hlen
      omega
  | cons t ts ih =>
      intro s lo he hf hr hb hprev hsched hlen
      obtain ⟨hlo, hts, hsched'⟩ := Sched_cons.mp hsched
      have hm : 0 < minLimit s := by
        unfold minLimit
        omega
      by_cases hdist : distTo s = 0
      · have hv : s.value_ = s.target_ := by
          unfold distTo at hdist
          omega
        have hk := runAbs_keeps (t :: ts) s hv
        unfold distTo
        rw [hk.1, hk.2]
        simp
      · have hvne : s.value_ ≠ s.target_ := by
          unfold distTo at hdist
          omega
        rw [runAbs_cons]
        simp only [List.length_cons] at hlen
        by_cases hp : s.period_ = 0
        · rw [AbsChangeLimiter.output_fire_abs s t he (Or.inl hp)]
          refine ih _ (t + max s.period_ 1) he hf hr hts ?_ hsched' ?_
          · intro _
            show t + s.period_ ≤ t + max s.period_ 1
            omega
          · show ceilDivN ((s.target_ - AbsChangeLimiter.stepValue s).natAbs) (minLimit s)
              + snapIndicator s.target_ (AbsChangeLimiter.stepValue s)
              + slack { s with prev_time_ := t, value_ := AbsChangeLimiter.stepValue s }
                  (t + max s.period_ 1) ≤ ts.length
            have hsl : slack { s with prev_time_ := t, value_ := AbsChangeLimiter.stepValue s } (t + max s.period_ 1) = 0 :=
              slack_p0 _ _ hp
            rw [hsl]
            rcases AbsChangeLimiter.step_dec_abs s hf hr hvne with
              ⟨hd0, hs0⟩ | ⟨hdec, hsle⟩ | ⟨hs1, hs0, hdle⟩
            · rw [hd0, ceilDivN_zero, hs0]
              omega
            · have hlt := ceilDivN_dec hm hdec
              unfold distTo at hlen
              omega
            · have hmono := @ceilDivN_mono _ _ (minLimit s) hdle
              rw [hs0]
              rw [hs1] at hlen
              unfold distTo at hlen
              omega
        · by_cases h0 : s.prev_time_ = 0
          · rw [AbsChangeLimiter.output_first_abs s t he h0 hp]
            refine ih _ (t + max s.period_ 1) he hf hr hts ?_ hsched' ?_
            · intro _
              show t + s.period_ ≤ t + max s.period_ 1
              omega
            · show ceilDivN (distTo s) (minLimit s) + snapIndicator s.target_ s.value_
                + slack { s with prev_time_ := t } (t + max s.period_ 1) ≤ ts.length
              by_cases ht0 : t = 0
              · subst ht0
                have hlo0 : lo = 0 := by omega
                have h1 : slack s lo = 2 := by
                  rw [slack_sentinel s lo hp h0, if_pos hlo0]
                have h2 : slack { s with prev_time_ := (0 : Nat) } (0 + max s.period_ 1)
                    = 1 := by
                  rw [slack_sentinel { s with prev_time_ := (0 : Nat) }
                    (0 + max s.period_ 1) hp rfl]
                  rw [if_neg (by omega)]
                rw [h2]
                rw [h1] at hlen
                omega
              · have h2 : slack { s with prev_time_ := t } (t + max s.period_ 1) = 0 :=
                  slack_of_prev_ne _ _ ht0
                have h1 : 1 ≤ slack s lo := by
                  rw [slack_sentinel s lo hp h0]
                  split <;> omega
                rw [h2]
                omega
          · have hple : s.prev_time_ + s.period_ ≤ t := le_trans (hprev h0) hlo
            have hfire : s.period_ ≤ elapsedTime t s.prev_time_ := by
              rw [elapsed_of_le (by omega) hts]
              omega
            rw [AbsChangeLimiter.output_fire_abs s t he (Or.inr ⟨h0, hfire⟩)]
            have ht0 : t ≠ 0 := by omega
            refine ih _ (t + max s.period_ 1) he hf hr hts ?_ hsched' ?_
            · intro _
              show t + s.period_ ≤ t + max s.period_ 1
              omega
            · show ceilDivN ((s.target_ - AbsChangeLimiter.stepValue s).natAbs) (minLimit s)
                + snapIndicator s.target_ (AbsChangeLimiter.stepValue s)
                + slack { s with prev_time_ := t, value_ := AbsChangeLimiter.stepValue s }
                    (t + max s.period_ 1) ≤ ts.length
              have hsl : slack { s with prev_time_ := t, value_ := AbsChangeLimiter.stepValue s } (t + max s.period_ 1) = 0 :=
                slack_of_prev_ne _ _ ht0
              rw [hsl]
              rw [slack_of_prev_ne s lo h0] at hlen
              rcases AbsChangeLimiter.step_dec_abs s hf hr hvne with
                ⟨hd0, hs0⟩ | ⟨hdec, hsle⟩ | ⟨hs1, hs0, hdle⟩
              · rw [hd0, ceilDivN_zero, hs0]
                omega
              · have hlt := ceilDivN_dec hm hdec
                unfold distTo at hlen
                omega
              · have hmono := @ceilDivN_mono _ _ (minLimit s) hdle
                rw [hs0]
                rw [hs1] at hlen
                unfold distTo at hlen
                omega

theorem runCL_disabled (ts : List Nat) :
    ∀ s : ChangeLimiter, s.enabled_ = false → ts ≠ [] → distTo (runCL s ts) = 0 := by
  induction ts with
  | nil => exact fun s _ h => absurd rfl h
  | cons t ts ih =>
      intro s he _
      rw [runCL_cons, ChangeLimiter.output_disabled s t he]
      by_cases hts : ts = []
      · subst hts
        rw [runCL_nil]
        unfold distTo
        simp
      · exact ih _ he hts

theorem runAbs_disabled (ts : List Nat) :
    ∀ s : ChangeLimiter, s.enabled_ = false → ts ≠ [] → distTo (runAbs s ts) = 0 := by
  induction ts with
  | nil => exact fun s _ h => absurd rfl h
  | cons t ts ih =>
      intro s he _
      rw [runAbs_cons, AbsChangeLimiter.output_disabled_abs s t he]
      by_cases hts : ts = []
      · subst hts
        rw [runAbs_nil]
        unfold distTo
        simp
      · exact ih _ he hts

/-- Claim C2, amended: for every reachable configuration of either limiter
with both effective limits nonzero, calling `output` along any valid
schedule (strictly increasing `unsigned long` timestamps spaced at least
`period` apart, the first at least `period` after a non-sentinel
`prev_time_`) makes `target_reached()` true within at most
`ceil (|target - value| / min (|maxFalling|, maxRising)) + 3` calls; the
three extra calls cover at most two idle sentinel-initialization calls and,
for the absolute limiter, the zero-crossing snap-to-zero step. -/
theorem C2_convergence_amended (s : ChangeLimiter) (ts : List Nat) :
    (ReachableCL s → s.max_falling_ ≠ 0 → s.max_rising_ ≠ 0 →
      Sched s.period_ (startLo s) ts →
      ceilDivN (distTo s) (minLimit s) + 3 ≤ ts.length →
      (runCL s ts).target_reached = true) ∧
    (ReachableAbs s → s.max_falling_ ≠ 0 → s.max_rising_ ≠ 0 →
      Sched s.period_ (startLo s) ts →
      ceilDivN (distTo s) (minLimit s) + 3 ≤ ts.length →
      (runAbs s ts).target_reached = true) := by
  constructor
  · intro hreach hf0 hr0 hsched hlen
    obtain ⟨hf, hr, hb⟩ := reachCL_inv hreach
    apply target_reached_of_dist
    by_cases he : s.enabled_ = true
    · refine convCL ts s (startLo s) he (hf.lt_of_ne hf0) (hr.lt_of_ne (Ne.symm hr0))
        hb ?_ hsched ?_
      · intro h0
        unfold startLo
        rw [if_neg h0]
      · have := slack_le_two s (startLo s)
        omega
    · have hne : ts ≠ [] := List.length_pos.mp (by omega)
      exact runCL_disabled ts s (by simpa using he) hne
  · intro hreach hf0 hr0 hsched hlen
    obtain ⟨hf, hr, hb⟩ := reachAbs_inv hreach
    apply target_reached_of_dist
    by_cases he : s.enabled_ = true
    · refine convAbs ts s (startLo s) he (hf.lt_of_ne (Ne.symm hf0))
        (hr.lt_of_ne (Ne.symm hr0)) hb ?_ hsched ?_
      · intro h0
        unfold startLo
        rw [if_neg h0]
      · have h1 := slack_le_two s (startLo s)
        have h2 := snapIndicator_le_one s.target_ s.value_
        omega
    · have hne : ts ≠ [] := List.length_pos.mp (by omega)
      exact runAbs_disabled ts s (by simpa using he) hne

/-- Claim C2 as stated is false: on the reachable AbsoluteStepLimiter
configuration with value = -5, target = 5, maxFalling = maxRising = 10 and
period 0, the claimed bound allows `ceil (10 / 10) = 1` call, but after one
call (a valid schedule) the value has only snapped to 0, so
`target_reached()` is still false. -/
theorem C2_convergence_counterexample :
    ReachableAbs (AbsChangeLimiter.set_limit
      (ChangeLimiter.set_target (ChangeLimiter.set_value
        (ChangeLimiter.begin zeroState) (-5)) 5) 10 10) ∧
    Sched (AbsChangeLimiter.set_limit
      (ChangeLimiter.set_target (ChangeLimiter.set_value
        (ChangeLimiter.begin zeroState) (-5)) 5) 10 10).period_
      (startLo (AbsChangeLimiter.set_limit
        (ChangeLimiter.set_target (ChangeLimiter.set_value
          (ChangeLimiter.begin zeroState) (-5)) 5) 10 10)) [7] ∧
    ceilDivN (distTo (AbsChangeLimiter.set_limit
      (ChangeLimiter.set_target (ChangeLimiter.set_value
        (ChangeLimiter.begin zeroState) (-5)) 5) 10 10))
      (minLimit (AbsChangeLimiter.set_limit
        (ChangeLimiter.set_target (ChangeLimiter.set_value
          (ChangeLimiter.begin zeroState) (-5)) 5) 10 10)) = 1 ∧
    (runAbs (AbsChangeLimiter.set_limit
      (ChangeLimiter.set_target (ChangeLimiter.set_value
        (ChangeLimiter.begin zeroState) (-5)) 5) 10 10) [7]).target_reached = false := by
  refine ⟨?_, ?_, ?_, ?_⟩
  · exact ReachableAbs.limit 10 10 (ReachableAbs.target 5
      (ReachableAbs.value (-5) (ReachableAbs.begun zeroState)))
  · exact ⟨by decide, by decide, trivial⟩
  · decide
  · decide

theorem C2_convergence_amended_witness :
    (runCL (ChangeLimiter.set_target (ChangeLimiter.set_limit
        (ChangeLimiter.begin zeroState) 1 1) 1) [0, 1, 2, 3]).target_reached = true ∧
    (runAbs (AbsChangeLimiter.set_limit
      (ChangeLimiter.set_target (ChangeLimiter.set_value
        (ChangeLimiter.begin zeroState) (-5)) 5) 10 10) [0, 1, 2, 3]).target_reached
      = true := by
  constructor
  · exact (C2_convergence_amended _ [0, 1, 2, 3]).1
      (ReachableCL.target 1 (ReachableCL.limit 1 1 (ReachableCL.begun zeroState)))
      (by decide) (by decide)
      ⟨by decide, by decide, by decide, by decide, by decide, by decide,
        by decide, by decide, trivial⟩
      (by decide)
  · exact (C2_convergence_amended _ [0, 1, 2, 3]).2
      (ReachableAbs.limit 10 10 (ReachableAbs.target 5
        (ReachableAbs.value (-5) (ReachableAbs.begun zeroState))))
      (by decide) (by decide)
      ⟨by decide, by decide, by decide, by decide, by decide, by decide,
        by decide, by decide, trivial⟩
      (by decide)
